import Mathlib

/-!
# Verification of the curl-mcp-server core

Shallow embedding of the curl-command parser (`src/curl-parser.ts`), the
request executor (`src/http-client.ts`), the MCP tool layer
(`src/server.ts`, `src/types.ts`) and the plain HTTP façade
(`http-wrapper.js`) of the `j0zack/curl-mcp-server` repository, together
with proofs and refutations of the frozen specification claims.

JavaScript strings are modelled as Lean `String`/`List Char`; the regular
expressions of the parser are modelled as executable matching functions that
follow the leftmost-match and greedy-with-backtracking semantics of the
concrete patterns appearing in the source.  JavaScript objects used as
string maps are modelled as association lists in insertion order where a
repeated assignment overwrites in place (`setKey`).
-/

/-- The single-quote character (written by code point to keep sources clean). -/
def squoteChar : Char := Char.ofNat 39

/-- The double-quote character. -/
def dquoteChar : Char := Char.ofNat 34

/-- JavaScript `\s` restricted to the ASCII whitespace characters
(the inputs of interest are ASCII; `\s` also covers some Unicode space
characters, which never occur in the modelled commands). -/
def isJsSpace (c : Char) : Bool :=
  c == ' ' || c == '\t' || c == '\n' || c == '\r' || c == '\x0b' || c == '\x0c'

/-- Character class `[^\s"'$]` of the URL regex in `curl-parser.ts` line 22
and `http-wrapper.js` line 30. -/
def isUrlChar (c : Char) : Bool :=
  !(isJsSpace c || c == dquoteChar || c == squoteChar || c == '$')

/-- ASCII letter, i.e. the class `[A-Z]` under the regex flag `i`. -/
def isAsciiLetter (c : Char) : Bool :=
  ('a' ≤ c && c ≤ 'z') || ('A' ≤ c && c ≤ 'Z')

/-- `String.prototype.toLowerCase` (ASCII). -/
def strToLower (s : String) : String := String.mk (s.data.map Char.toLower)

/-- `String.prototype.toUpperCase` (ASCII). -/
def strToUpper (s : String) : String := String.mk (s.data.map Char.toUpper)

/-- `String.prototype.startsWith`. -/
def strStartsWith (s p : String) : Bool := p.data.isPrefixOf s.data

/-- `String.prototype.substring(n)`. -/
def strDrop (s : String) (n : Nat) : String := String.mk (s.data.drop n)

/-- One global literal replace (`String.prototype.replace` with a `g`
regex on a literal pattern): leftmost, non-overlapping.  The fuel is the
length of the scanned list. -/
def replaceAllChars (pat rep : List Char) : Nat → List Char → List Char
  | 0, cs => cs
  | _ + 1, [] => []
  | fuel + 1, c :: rest =>
    if pat.isPrefixOf (c :: rest) then
      rep ++ replaceAllChars pat rep fuel ((c :: rest).drop pat.length)
    else c :: replaceAllChars pat rep fuel rest

/-- `String.prototype.replace(/pat/g, rep)` for a literal pattern. -/
def strReplace (s pat rep : String) : String :=
  String.mk (replaceAllChars pat.data rep.data s.data.length s.data)

/-- `String.prototype.trim` on the character list. -/
def trimChars (l : List Char) : List Char :=
  ((l.dropWhile isJsSpace).reverse.dropWhile isJsSpace).reverse

/-- `String.prototype.trim`. -/
def jsTrim (s : String) : String := String.mk (trimChars s.data)

/-- UTF-8 byte length of a string, i.e. `Buffer.byteLength(s, 'utf-8')`. -/
def utf8Len (s : String) : Nat :=
  s.data.foldl (fun n c => n + c.utf8Size) 0

/-- `String.prototype.indexOf` for a single character (`none` for -1). -/
def firstIdxOf (c : Char) : List Char → Option Nat
  | [] => none
  | x :: xs =>
    if x == c then some 0
    else match firstIdxOf c xs with
      | some i => some (i + 1)
      | none => none

/-- Largest index `k` with `l.get? k = some c`; used for the greedy
backtracking of a trailing back-reference after a `[^']+` run. -/
def lastIdxOf (c : Char) : List Char → Option Nat
  | [] => none
  | x :: xs =>
    match lastIdxOf c xs with
    | some i => some (i + 1)
    | none => if x == c then some 0 else none

/-- Match the characters of `pat` case-insensitively at the start of `cs`,
returning the remainder (regex literals under the `i` flag). -/
def matchCI : List Char → List Char → Option (List Char)
  | [], cs => some cs
  | _ :: _, [] => none
  | p :: ps, c :: cs => if c.toLower == p.toLower then matchCI ps cs else none

/-- `\s+`: require at least one whitespace character, return the rest. -/
def manyWs1 (cs : List Char) : Option (List Char) :=
  if (cs.takeWhile isJsSpace).isEmpty then none else some (cs.dropWhile isJsSpace)

/-- Lookup in a JavaScript-object-as-map (`obj[key]`). -/
def getValue : List (String × String) → String → Option String
  | [], _ => none
  | (k', v') :: t, k => if k' == k then some v' else getValue t k

/-- Assignment `obj[key] = value`: overwrite in place, else append. -/
def setKey : List (String × String) → String → String → List (String × String)
  | [], k, v => [(k, v)]
  | (k', v') :: t, k, v => if k' == k then (k', v) :: t else (k', v') :: setKey t k v

/-- JavaScript truthiness of an optional string (`undefined` and `""` are
falsy). -/
def truthyStrOpt : Option String → Bool
  | none => false
  | some s => s != ""

/-- JavaScript truthiness of `obj[key]` for a string map. -/
def truthyGet (l : List (String × String)) (k : String) : Bool :=
  truthyStrOpt (getValue l k)

/-! ## URL extraction

`curl-parser.ts` line 22: `/(?:^|\s)(https?:\/\/[^\s"'\$]+)/i` (first match,
capture group 1); `http-wrapper.js` line 30 uses the same body without the
`(?:^|\s)` boundary. -/

/-- Try to match `https?:\/\/[^\s"'$]+` at the head of `cs` (case-insensitive
scheme, greedy `s?`), returning the matched text with its original casing. -/
def matchUrlAt (cs : List Char) : Option String :=
  match matchCI ("https://".data) cs with
  | some rest =>
    let run := rest.takeWhile isUrlChar
    if run.isEmpty then none else some (String.mk (cs.take 8 ++ run))
  | none =>
    match matchCI ("http://".data) cs with
    | some rest =>
      let run := rest.takeWhile isUrlChar
      if run.isEmpty then none else some (String.mk (cs.take 7 ++ run))
    | none => none

/-- Leftmost match of the anchored URL regex: the URL may start at the very
beginning or right after a whitespace character.  `bd` records whether the
current position is such a boundary. -/
def findUrlFrom : Bool → List Char → Option String
  | _, [] => none
  | bd, c :: rest =>
    match (if bd then matchUrlAt (c :: rest) else none) with
    | some u => some u
    | none => findUrlFrom (isJsSpace c) rest

/-- Leftmost match of the unanchored URL regex of the façade. -/
def findUrlAnywhere : List Char → Option String
  | [] => none
  | c :: rest =>
    match matchUrlAt (c :: rest) with
    | some u => some u
    | none => findUrlAnywhere rest

/-! ## Method extraction

`curl-parser.ts` line 30 / `http-wrapper.js` line 36:
`-(?:X|request)\s+(['"]?)([A-Z]+)\1/i`, first match, capture group 2. -/

/-- The tail `\s+(['"]?)([A-Z]+)\1` after the `-X`/`--request` flag.  An
opening quote must be closed by the same quote right after the letter run;
when the first non-space character is not a quote, the empty alternative of
`(['"]?)` applies and a bare letter run matches. -/
def methodTail (cs : List Char) : Option String :=
  match manyWs1 cs with
  | none => none
  | some r =>
    match r with
    | [] => none
    | q :: r2 =>
      if q == squoteChar || q == dquoteChar then
        let run := r2.takeWhile isAsciiLetter
        if !run.isEmpty && (r2.drop run.length).head? == some q then
          some (String.mk run)
        else none
      else
        let run := r.takeWhile isAsciiLetter
        if run.isEmpty then none else some (String.mk run)

/-- Match `-(?:X|request)` followed by `methodTail` at the head of `cs`
(the `X` alternative is tried before `request`, with backtracking). -/
def matchMethodAt (cs : List Char) : Option String :=
  match cs with
  | [] => none
  | c :: rest =>
    if c == '-' then
      match (match matchCI (['X']) rest with
             | some r => methodTail r
             | none => none) with
      | some m => some m
      | none =>
        match matchCI ("request".data) rest with
        | some r => methodTail r
        | none => none
    else none

/-- Leftmost match of the method regex. -/
def findMethod : List Char → Option String
  | [] => none
  | c :: rest =>
    match matchMethodAt (c :: rest) with
    | some m => some m
    | none => findMethod rest

/-! ## Header extraction

`curl-parser.ts` line 37 / `http-wrapper.js` line 42:
`-(?:H|header)\s+(['"])([^']+)\1/gi`, a global scan collecting capture
group 2 of every match.  Note that the content class `[^']+` forbids only
single quotes, whichever quote opens the argument, and that with a
double-quoted argument the greedy `[^']+` backtracks to the **last** double
quote inside the single-quote-free run. -/

/-- The tail `\s+(['"])([^']+)\1` after the `-H`/`--header` flag, returning
the captured content and the remainder of the input after the closing
quote. -/
def headerArgTail (cs : List Char) : Option (String × List Char) :=
  match manyWs1 cs with
  | none => none
  | some r =>
    match r with
    | [] => none
    | q :: r2 =>
      if q == squoteChar then
        let run := r2.takeWhile (fun c => c != squoteChar)
        if !run.isEmpty && !(r2.drop run.length).isEmpty then
          some (String.mk run, r2.drop (run.length + 1))
        else none
      else if q == dquoteChar then
        let run := r2.takeWhile (fun c => c != squoteChar)
        match lastIdxOf dquoteChar run with
        | some k =>
          if 1 ≤ k then some (String.mk (run.take k), r2.drop (k + 1)) else none
        | none => none
      else none

/-- Match `-(?:H|header)` followed by `headerArgTail` at the head of `cs`
(alternative `H` tried before `header`, with backtracking). -/
def matchHeaderAt (cs : List Char) : Option (String × List Char) :=
  match cs with
  | [] => none
  | c :: rest =>
    if c == '-' then
      match (match matchCI (['H']) rest with
             | some r => headerArgTail r
             | none => none) with
      | some res => some res
      | none =>
        match matchCI ("header".data) rest with
        | some r => headerArgTail r
        | none => none
    else none

/-- The global `exec` loop of the header regex: successive non-overlapping
leftmost matches, each continuing right after the previous one.  The fuel is
the length of the scanned list (every step consumes at least one
character). -/
def scanHeaders : Nat → List Char → List String
  | 0, _ => []
  | _ + 1, [] => []
  | fuel + 1, c :: rest =>
    match matchHeaderAt (c :: rest) with
    | some (line, after) => line :: scanHeaders fuel after
    | none => scanHeaders fuel rest

/-! ## Body extraction

`curl-parser.ts` line 60 / `http-wrapper.js` line 55:
`--data(?:-ascii|-binary|-urlencode)?\s+(['"])([^']+)\1|-(?:d|data)\s+(['"]?)([^'\s]+)\3/gi`.
Both loops break at the first match with a (necessarily nonempty) value, so
only the leftmost match is modelled. -/

/-- The tail `\s+(['"]?)([^'\s]+)\3` of the second data alternative (also the
tail of the `-u`/`--user` regex).  The quoted reading of `(['"]?)` is tried
first; if it cannot be completed the empty alternative applies, in which case
the content may start at the quote character itself (only a double quote
qualifies, a single quote being excluded by `[^'\s]`). -/
def bareArgTail (cs : List Char) : Option String :=
  match manyWs1 cs with
  | none => none
  | some r =>
    match r with
    | [] => none
    | q :: r2 =>
      if q == squoteChar then
        let run := r2.takeWhile (fun c => c != squoteChar && !isJsSpace c)
        if !run.isEmpty && (r2.drop run.length).head? == some squoteChar then
          some (String.mk run)
        else none
      else if q == dquoteChar then
        let run := r2.takeWhile (fun c => c != squoteChar && !isJsSpace c)
        match lastIdxOf dquoteChar run with
        | some k =>
          if 1 ≤ k then some (String.mk (run.take k))
          else
            let run' := r.takeWhile (fun c => c != squoteChar && !isJsSpace c)
            if run'.isEmpty then none else some (String.mk run')
        | none =>
          let run' := r.takeWhile (fun c => c != squoteChar && !isJsSpace c)
          if run'.isEmpty then none else some (String.mk run')
      else
        let run := r.takeWhile (fun c => c != squoteChar && !isJsSpace c)
        if run.isEmpty then none else some (String.mk run)

/-- First alternative `--data(?:-ascii|-binary|-urlencode)?\s+(['"])([^']+)\1`
at the head of `cs`; the optional suffix tries `-ascii`, `-binary`,
`-urlencode` and then the empty alternative. -/
def dataQuotedAlt (cs : List Char) : Option String :=
  match matchCI ("--data".data) cs with
  | none => none
  | some r =>
    match (match matchCI ("-ascii".data) r with
           | some r2 => (headerArgTail r2).map Prod.fst
           | none => none) with
    | some v => some v
    | none =>
      match (match matchCI ("-binary".data) r with
             | some r2 => (headerArgTail r2).map Prod.fst
             | none => none) with
      | some v => some v
      | none =>
        match (match matchCI ("-urlencode".data) r with
               | some r2 => (headerArgTail r2).map Prod.fst
               | none => none) with
        | some v => some v
        | none => (headerArgTail r).map Prod.fst

/-- Second alternative `-(?:d|data)\s+(['"]?)([^'\s]+)\3` at the head of `cs`
(alternative `d` tried before `data`, with backtracking). -/
def dataBareAlt (cs : List Char) : Option String :=
  match cs with
  | [] => none
  | c :: rest =>
    if c == '-' then
      match (match matchCI (['d']) rest with
             | some r => bareArgTail r
             | none => none) with
      | some v => some v
      | none =>
        match matchCI ("data".data) rest with
        | some r => bareArgTail r
        | none => none
    else none

/-- Match of the full data regex at the head of `cs` (first alternative
preferred). -/
def matchDataAt (cs : List Char) : Option String :=
  match dataQuotedAlt cs with
  | some v => some v
  | none => dataBareAlt cs

/-- Leftmost match of the data regex: the value of the first match, at which
both source loops `break`. -/
def findData : List Char → Option String
  | [] => none
  | c :: rest =>
    match matchDataAt (c :: rest) with
    | some v => some v
    | none => findData rest

/-- Unescaping of the extracted data value (`curl-parser.ts` lines 67-70 /
`http-wrapper.js` line 60): three successive global replaces. -/
def unescapeData (v : String) : String :=
  strReplace (strReplace (strReplace v ("\\n") ("\n")) ("\\t") ("\t")) ("\\r") ("\r")

/-! ## Basic-auth extraction

`curl-parser.ts` line 83: `-(?:u|user)\s+(['"]?)([^'\s]+)\1/i`, first match,
capture group 2.  The façade has no such pass. -/

/-- Match `-(?:u|user)` followed by `bareArgTail` at the head of `cs`. -/
def matchUserAt (cs : List Char) : Option String :=
  match cs with
  | [] => none
  | c :: rest =>
    if c == '-' then
      match (match matchCI (['u']) rest with
             | some r => bareArgTail r
             | none => none) with
      | some v => some v
      | none =>
        match matchCI ("user".data) rest with
        | some r => bareArgTail r
        | none => none
    else none

/-- Leftmost match of the `-u`/`--user` regex. -/
def findUser : List Char → Option String
  | [] => none
  | c :: rest =>
    match matchUserAt (c :: rest) with
    | some v => some v
    | none => findUser rest

/-- Word character for `\b` (`[A-Za-z0-9_]`). -/
def isWordChar (c : Char) : Bool :=
  isAsciiLetter c || c.isDigit || c == '_'

/-- `-(?:k|insecure)\b/i.test(trimmed)` (`curl-parser.ts` line 104).  The
source computes this flag and deliberately never uses it (lines 117-118). -/
def hasInsecureFlag : List Char → Bool
  | [] => false
  | c :: rest =>
    (if c == '-' then
      (match matchCI (['k']) rest with
       | some r => !(r.head?.elim false isWordChar)
       | none => false) ||
      (match matchCI ("insecure".data) rest with
       | some r => !(r.head?.elim false isWordChar)
       | none => false)
    else false) || hasInsecureFlag rest

/-! ## Request descriptors (`types.ts`) -/

/-- `AuthConfig` of `types.ts` lines 33-38: a `type` string with optional
credential fields (the executors switch on the string and test the fields
for truthiness). -/
structure AuthConfig where
  type : String
  username : Option String := none
  password : Option String := none
  token : Option String := none
  deriving Repr, DecidableEq

/-- `HttpRequestConfig` of `types.ts` lines 28-41.  The method is kept as a
string: the curl parser casts an arbitrary uppercased token into it
(`curl-parser.ts` line 109). -/
structure HttpRequestConfig where
  url : String
  method : String
  headers : Option (List (String × String)) := none
  body : Option String := none
  auth : Option AuthConfig := none
  timeout : Option Nat := none
  followRedirects : Option Bool := none
  deriving Repr, DecidableEq

/-! ## The curl-command parser (`curl-parser.ts`) -/

/-- The two exceptions `parseCurlCommand` can throw (`curl-parser.ts`
lines 11 and 25). -/
inductive CurlParseError where
  | invalidCommand
  | missingUrl
  deriving Repr, DecidableEq

/-- `trimmed.toLowerCase().startsWith('curl')` (`curl-parser.ts` line 10),
applied to the already-trimmed string. -/
def startsWithCurl (trimmed : String) : Bool :=
  strStartsWith (strToLower trimmed) ("curl")

/-- One step of the header loop of `curl-parser.ts` lines 39-57: split the
captured header line at its first colon; when the colon exists and is not
first, trim both sides, store the pair, and derive an implicit bearer
`AuthSpec` from an `Authorization: Bearer ...` header. -/
def applyHeaderLine (st : List (String × String) × Option AuthConfig)
    (line : String) : List (String × String) × Option AuthConfig :=
  match firstIdxOf ':' line.data with
  | some i =>
    if 0 < i then
      let key := String.mk (trimChars (line.data.take i))
      let value := String.mk (trimChars (line.data.drop (i + 1)))
      let headers := setKey st.1 key value
      let auth :=
        if strToLower key == "authorization" &&
            strStartsWith (strToLower value) ("bearer ") then
          some { type := "bearer", token := some (strDrop value 7) }
        else st.2
      (headers, auth)
    else st
  | none => st

/-- Headers and implicit bearer auth collected from the (trimmed) command
characters (`curl-parser.ts` lines 37-57). -/
def curlHeadersAuth (t : List Char) : List (String × String) × Option AuthConfig :=
  (scanHeaders t.length t).foldl applyHeaderLine ([], none)

/-- The credentials of a `-u`/`--user` flag converted into a basic
`AuthConfig` (`curl-parser.ts` lines 86-100): split at the first colon when
it exists and is not first, otherwise the whole string is the username and
the password is empty. -/
def mkBasicAuth (credentials : String) : AuthConfig :=
  match firstIdxOf ':' credentials.data with
  | some i =>
    if 0 < i then
      { type := "basic"
        username := some (String.mk (credentials.data.take i))
        password := some (String.mk (credentials.data.drop (i + 1))) }
    else { type := "basic", username := some credentials, password := some ("") }
  | none => { type := "basic", username := some credentials, password := some ("") }

/-- The part of `parseCurlCommand` after the URL has been found
(`curl-parser.ts` lines 29-120), operating on the trimmed command and
producing the returned `HttpRequestConfig`: method extraction, header/bearer
extraction, body extraction (with unescaping and the POST default), basic
auth extraction overriding any implicit bearer auth, and the fixed
`timeout`/`followRedirects` values. -/
def parseCurlRest (trimmed : String) (url : String) : HttpRequestConfig :=
  let t := trimmed.data
  let methodMatch := findMethod t
  let method0 := match methodMatch with
    | some m => strToUpper m
    | none => "GET"
  let ha := curlHeadersAuth t
  let body0 := match findData t with
    | some v => unescapeData v
    | none => ""
  let method1 :=
    if body0 != "" && methodMatch.isNone then "POST" else method0
  let auth := match findUser t with
    | some credentials => some (mkBasicAuth credentials)
    | none => ha.2
  { url := url
    method := method1
    headers := some ha.1
    body := if body0 != "" then some body0 else none
    auth := auth
    timeout := some 30000
    followRedirects := some true }

/-- `parseCurlCommand` of `curl-parser.ts` lines 6-121, with the two thrown
errors modelled as `Except.error`. -/
def parseCurlCommand (curlCommand : String) : Except CurlParseError HttpRequestConfig :=
  let trimmed := jsTrim curlCommand
  if !startsWithCurl trimmed then Except.error CurlParseError.invalidCommand
  else
    match findUrlFrom true trimmed.data with
    | none => Except.error CurlParseError.missingUrl
    | some url => Except.ok (parseCurlRest trimmed url)

/-! ## The façade's simplified parser (`http-wrapper.js` lines 21-69) -/

/-- The façade's parse result: it has no auth component, never throws, and
leaves `url` empty when no URL is found. -/
structure FacadeParsed where
  url : String
  method : String
  headers : List (String × String)
  body : Option String
  deriving Repr, DecidableEq

/-- One step of the façade's header loop (`http-wrapper.js` lines 44-52):
as `applyHeaderLine` but with no `Authorization` side effect. -/
def applyHeaderLineF (hs : List (String × String)) (line : String) :
    List (String × String) :=
  match firstIdxOf ':' line.data with
  | some i =>
    if 0 < i then
      let key := String.mk (trimChars (line.data.take i))
      let value := String.mk (trimChars (line.data.drop (i + 1)))
      setKey hs key value
    else hs
  | none => hs

/-- `parseCurlCommand` of `http-wrapper.js` lines 21-69: no trimming, no
`curl` prefix check, unanchored URL regex defaulting to `""`, same method,
header (without bearer) and body extraction, no basic-auth pass. -/
def facadeParseCurlCommand (curlCommand : String) : FacadeParsed :=
  let t := curlCommand.data
  let url := (findUrlAnywhere t).getD ""
  let methodMatch := findMethod t
  let method0 := match methodMatch with
    | some m => strToUpper m
    | none => "GET"
  let headers := (scanHeaders t.length t).foldl applyHeaderLineF []
  let body := match findData t with
    | some v => some (unescapeData v)
    | none => none
  let method1 :=
    if body.isSome && methodMatch.isNone then "POST" else method0
  { url := url, method := method1, headers := headers, body := body }

/-! ## The request executor (`http-client.ts`)

The request-building phase (lines 14-52) is a pure computation from the
descriptor; the network outcome of `await axios(axiosConfig)` is modelled as
an explicit `AxiosOutcome`, from which the response-normalization phase
(lines 54-94 and `handleAxiosError`, lines 100-138) builds the returned
`HttpResponse`. -/

/-- The outgoing axios request configuration (lines 17-24 plus the fields
added in lines 26-52).  `headers` is the final state of the locally built
headers object after the Content-Type default and the auth injection. -/
structure AxiosConfig where
  url : String
  method : String
  headers : List (String × String)
  timeout : Option Nat
  maxRedirects : Nat
  data : Option String := none
  auth : Option (String × String) := none
  deriving Repr, DecidableEq

/-- `['POST', 'PUT', 'PATCH'].includes(config.method)` (line 27). -/
def methodAllowsBody (m : String) : Bool :=
  m == "POST" || m == "PUT" || m == "PATCH"

/-- The header state after the auth switch of lines 36-52: a bearer auth with
a truthy token injects/overwrites `Authorization`; everything else leaves the
headers alone. -/
def headersAfterAuth (auth : Option AuthConfig) (hs : List (String × String)) :
    List (String × String) :=
  match auth with
  | none => hs
  | some a =>
    if a.type == "bearer" && truthyStrOpt a.token then
      setKey hs ("Authorization") ("Bearer " ++ a.token.getD "")
    else hs

/-- The transport-level credentials of lines 38-45: present exactly for a
basic auth whose username and password are both truthy. -/
def basicCredentials (auth : Option AuthConfig) : Option (String × String) :=
  match auth with
  | none => none
  | some a =>
    if a.type == "basic" && truthyStrOpt a.username && truthyStrOpt a.password then
      some (a.username.getD "", a.password.getD "")
    else none

/-- The request-building phase of `executeRequest` (lines 14-52).  Line 16
copies the descriptor's headers (`{ ...(config.headers || {}) }`); the copy
is then mutated by the Content-Type default (lines 27-33) and the bearer
injection (lines 46-50). -/
def buildAxiosConfig (config : HttpRequestConfig) : AxiosConfig :=
  let headers0 := config.headers.getD []
  let attach := truthyStrOpt config.body && methodAllowsBody config.method
  let headers1 :=
    if attach && !(truthyGet headers0 ("Content-Type")) then
      setKey headers0 ("Content-Type") ("application/json")
    else headers0
  { url := config.url
    method := strToLower config.method
    headers := headersAfterAuth config.auth headers1
    timeout := config.timeout
    maxRedirects := if config.followRedirects.getD false then 5 else 0
    data := if attach then config.body else none
    auth := basicCredentials config.auth }

/-- The descriptor's headers as observable after `executeRequest` built its
request.  Line 16 spreads them into a fresh object, so the caller's mapping
is never written to. -/
def mcpHeadersAfter (config : HttpRequestConfig) : Option (List (String × String)) :=
  config.headers

/-- The payload of `response.data` as far as the normalization code
distinguishes it: `undefined`, `null`, a string, or a structured value.  A
structured value is carried together with its two JSON renderings,
`JSON.stringify(data, null, 2)` (pretty) and `JSON.stringify(data)`
(compact), which are what the source computes from it. -/
inductive AxiosData where
  | undef
  | null
  | str (s : String)
  | obj (pretty compact : String)
  deriving Repr, DecidableEq

/-- `formatBody` (`http-client.ts` lines 143-161): `undefined`/`null` become
`""`, strings pass through, structured values are pretty-printed. -/
def formatBody : AxiosData → String
  | AxiosData.undef => ""
  | AxiosData.null => ""
  | AxiosData.str s => s
  | AxiosData.obj pretty _ => pretty

/-- `calculateBodySize` (lines 166-169): the UTF-8 byte length of the
formatted body. -/
def calculateBodySize (data : AxiosData) : Nat :=
  utf8Len (formatBody data)

/-- The possible outcomes of `await axios(axiosConfig)` as classified by
lines 55-94: a resolved response (any status, since `validateStatus` accepts
everything), an `AxiosError` carrying a response, an `AxiosError` with a
request but no response, an `AxiosError` from request setup, or a non-axios
error (whose message is absent when the thrown value is not an `Error`). -/
inductive AxiosOutcome where
  | ok (status : Nat) (statusText : String)
      (headers : List (String × String)) (data : AxiosData)
  | errResponse (status : Nat) (statusText : String)
      (headers : List (String × String)) (data : AxiosData)
  | errNoResponse
  | errSetup (message : String)
  | unknown (message : Option String)
  deriving Repr, DecidableEq

/-- The normalized response (`HttpResponse` of `types.ts` lines 62-71). -/
structure HttpResponse where
  success : Bool
  status : Nat
  statusText : String
  headers : List (String × String)
  body : String
  bodySize : Nat
  duration : Nat
  error : Option String := none
  deriving Repr, DecidableEq

/-- The response-normalization phase of `executeRequest` (lines 54-94) and
`handleAxiosError` (lines 100-138), as a function of the outcome and the
measured duration. -/
def executeRequestResponse (outcome : AxiosOutcome) (duration : Nat) : HttpResponse :=
  match outcome with
  | AxiosOutcome.ok status statusText headers data =>
    let success := decide (200 ≤ status) && decide (status < 300)
    { success := success
      status := status
      statusText := statusText
      headers := headers
      body := formatBody data
      bodySize := calculateBodySize data
      duration := duration
      error := if success then none
               else some ("HTTP " ++ toString status ++ ": " ++ statusText) }
  | AxiosOutcome.errResponse status statusText headers data =>
    { success := false
      status := status
      statusText := statusText
      headers := headers
      body := formatBody data
      bodySize := calculateBodySize data
      duration := duration
      error := some ("HTTP " ++ toString status ++ ": " ++ statusText) }
  | AxiosOutcome.errNoResponse =>
    { success := false, status := 0, statusText := "No Response", headers := []
      body := "", bodySize := 0, duration := duration
      error := some ("No response received from server") }
  | AxiosOutcome.errSetup message =>
    { success := false, status := 0, statusText := "Request Error", headers := []
      body := "", bodySize := 0, duration := duration
      error := some message }
  | AxiosOutcome.unknown message =>
    { success := false, status := 0, statusText := "Unknown Error", headers := []
      body := "", bodySize := 0, duration := duration
      error := some (message.getD "Unknown error occurred") }

/-! ## The façade's executor (`http-wrapper.js` lines 74-149) -/

/-- The request-building phase of the façade's `executeHttpRequest`
(lines 78-105).  Unlike `http-client.ts`, line 81 aliases the descriptor's
headers object (`headers: config.headers || {}`) instead of copying it, the
timeout default uses truthiness (`config.timeout || 30000`) and redirects are
followed unless `followRedirects` is exactly `false`. -/
def facadeBuildAxios (config : HttpRequestConfig) : AxiosConfig :=
  let headers0 := config.headers.getD []
  let attach := truthyStrOpt config.body && methodAllowsBody config.method
  let headers1 :=
    if attach && !(truthyGet headers0 ("Content-Type")) then
      setKey headers0 ("Content-Type") ("application/json")
    else headers0
  { url := config.url
    method := strToLower config.method
    headers := headersAfterAuth config.auth headers1
    timeout := some (match config.timeout with
                     | some t => if t == 0 then 30000 else t
                     | none => 30000)
    maxRedirects := if config.followRedirects == some false then 0 else 5
    data := if attach then config.body else none
    auth := basicCredentials config.auth }

/-- The descriptor's headers as observable after the façade's
`executeHttpRequest` built its request: when the descriptor supplied a
headers object, that very object received the Content-Type default (lines
90-92) and the bearer injection (line 103), so the caller sees the mutated
outgoing headers; when it supplied none, a fresh `{}` was used. -/
def facadeHeadersAfter (config : HttpRequestConfig) : Option (List (String × String)) :=
  config.headers.map (fun _ => (facadeBuildAxios config).headers)

/-- The façade's outcome classification (lines 107-148): a resolved response,
an error with a response, or any other error. -/
inductive FacadeOutcome where
  | ok (status : Nat) (statusText : String)
      (headers : List (String × String)) (data : AxiosData)
  | errResponse (status : Nat) (statusText : String)
      (headers : List (String × String)) (data : AxiosData)
  | errOther (message : String)
  deriving Repr, DecidableEq

/-- The façade's response shape: its `body` can be `undefined` (the raw
`response.data` is passed through when it is not an object). -/
structure FacadeResponse where
  success : Bool
  status : Nat
  statusText : String
  headers : List (String × String)
  body : Option String
  bodySize : Nat
  duration : Nat
  error : Option String := none
  deriving Repr, DecidableEq

/-- `typeof response.data === 'object' ? JSON.stringify(response.data, null, 2)
: response.data` (line 115).  Note `typeof null === 'object'`, so `null` is
rendered as the text `null`, and `undefined` passes through. -/
def facadeBodyPretty : AxiosData → Option String
  | AxiosData.undef => none
  | AxiosData.null => some ("null")
  | AxiosData.str s => some s
  | AxiosData.obj pretty _ => some pretty

/-- `typeof error.response.data === 'object' ? JSON.stringify(error.response.data)
: error.response.data` (line 131): the compact rendering. -/
def facadeBodyCompact : AxiosData → Option String
  | AxiosData.undef => none
  | AxiosData.null => some ("null")
  | AxiosData.str s => some s
  | AxiosData.obj _ compact => some compact

/-- The string whose byte length line 116-119 measures:
`typeof response.data === 'object' ? JSON.stringify(response.data) :
response.data || ''` — the compact rendering, not the pretty one used for
the body. -/
def facadeSizeSource : AxiosData → String
  | AxiosData.undef => ""
  | AxiosData.null => "null"
  | AxiosData.str s => s
  | AxiosData.obj _ compact => compact

/-- The response phase of the façade's `executeHttpRequest`
(lines 107-148). -/
def facadeExecuteResponse (outcome : FacadeOutcome) (duration : Nat) : FacadeResponse :=
  match outcome with
  | FacadeOutcome.ok status statusText headers data =>
    { success := decide (200 ≤ status) && decide (status < 300)
      status := status
      statusText := statusText
      headers := headers
      body := facadeBodyPretty data
      bodySize := utf8Len (facadeSizeSource data)
      duration := duration
      error := none }
  | FacadeOutcome.errResponse status statusText headers data =>
    { success := false
      status := status
      statusText := statusText
      headers := headers
      body := facadeBodyCompact data
      bodySize := 0
      duration := duration
      error := some ("HTTP " ++ toString status ++ ": " ++ statusText) }
  | FacadeOutcome.errOther message =>
    { success := false, status := 0, statusText := "Error", headers := []
      body := some "", bodySize := 0, duration := duration
      error := some message }

/-! ## The `http_request` tool input (`types.ts` lines 102-127, `server.ts`)

`HttpRequestInputSchema` declares `url` and `method` without `.optional()`
(and without `.default(...)`), so Zod reports a `Required` issue for each of
them when absent; `headers`, `body`, `auth`, `timeout` and `followRedirects`
are `.optional()`.  The raw input is modelled with its fields already
well-typed (Zod's string/number/record type checks are enforced by the Lean
types); the `.url()` format check on a present `url` is not modelled, which
only makes the embedded validation more permissive — the claims it serves
concern inputs whose `url` is a well-formed absolute URL. -/

/-- A raw tool-call argument object for `http_request`: every field may be
absent. -/
structure HttpRequestInputRaw where
  url : Option String := none
  method : Option String := none
  headers : Option (List (String × String)) := none
  body : Option String := none
  auth : Option AuthConfig := none
  timeout : Option Nat := none
  followRedirects : Option Bool := none
  deriving Repr, DecidableEq

/-- The parsed `HttpRequestInput` (`z.infer` of the schema): `url` and
`method` are required, the rest optional. -/
structure HttpRequestInput where
  url : String
  method : String
  headers : Option (List (String × String)) := none
  body : Option String := none
  auth : Option AuthConfig := none
  timeout : Option Nat := none
  followRedirects : Option Bool := none
  deriving Repr, DecidableEq

/-- The enum of `HttpRequestInputSchema.method` (`types.ts` line 104). -/
def httpMethodEnum : List String :=
  ["GET", "POST", "PUT", "PATCH", "DELETE", "HEAD", "OPTIONS"]

/-- The issues `HttpRequestInputSchema.parse` raises on a raw input: a
`Required` issue for each missing non-optional field, and an enum issue for
a method outside the enum. -/
def zodIssuesHttpRequestInput (raw : HttpRequestInputRaw) : List String :=
  (match raw.url with
   | none => ["url: Required"]
   | some _ => []) ++
  (match raw.method with
   | none => ["method: Required"]
   | some m => if httpMethodEnum.contains m then [] else ["method: Invalid enum value"])

/-- `HttpRequestInputSchema.parse(args)` (`server.ts` line 399): a `ZodError`
with the collected issues, or the parsed input. -/
def zodParseHttpRequestInput (raw : HttpRequestInputRaw) :
    Except (List String) HttpRequestInput :=
  match zodIssuesHttpRequestInput raw with
  | [] =>
    match raw.url, raw.method with
    | some u, some m =>
      Except.ok { url := u, method := m, headers := raw.headers, body := raw.body
                  auth := raw.auth, timeout := raw.timeout
                  followRedirects := raw.followRedirects }
    | _, _ => Except.error ["unreachable"]
  | issue :: rest => Except.error (issue :: rest)

/-- `applyDefaults` (`server.ts` lines 255-265): `method || 'GET'`,
`timeout ?? 30000`, `followRedirects ?? true`. -/
def applyDefaults (input : HttpRequestInput) : HttpRequestConfig :=
  { url := input.url
    method := if input.method == "" then "GET" else input.method
    headers := input.headers
    body := input.body
    auth := input.auth
    timeout := some (input.timeout.getD 30000)
    followRedirects := some (input.followRedirects.getD true) }

/-- The `required` list of the `http_request` tool's advertised JSON input
schema (`server.ts` line 364): only `url`. -/
def httpRequestAdvertisedRequired : List String := ["url"]

/-- The advertised default of the `method` property (`server.ts` line 319). -/
def httpRequestAdvertisedMethodDefault : String := "GET"

/-! ## The façade's endpoints (`http-wrapper.js` lines 157-220) -/

/-- A fragment of JSON large enough for the endpoint response bodies. -/
inductive JVal where
  | str (s : String)
  | bool (b : Bool)
  | num (n : Nat)
  | obj (fields : List (String × JVal))

/-- Whether a JSON value is the literal `false`. -/
def JVal.isFalse : JVal → Bool
  | JVal.bool false => true
  | _ => false

/-- Whether a JSON object body carries the field `success: false`. -/
def hasSuccessFalse (fields : List (String × JVal)) : Bool :=
  fields.any (fun kv => kv.1 == "success" && kv.2.isFalse)

/-- The 400 response of `POST /api/execute_curl` for a missing (or empty)
`curlCommand` (line 162): status 400 with body `{ error: 'curlCommand is
required' }`. -/
def executeCurlMissingFieldResponse : Nat × List (String × JVal) :=
  (400, [("error", JVal.str ("curlCommand is required"))])

/-- The 400 response of `POST /api/http_request` for a missing (or empty)
`url` (line 192): status 400 with body `{ error: 'url is required' }`. -/
def httpRequestMissingFieldResponse : Nat × List (String × JVal) :=
  (400, [("error", JVal.str ("url is required"))])

/-- The 500 response both façade endpoints produce in their catch blocks
(lines 173-182 and 209-218). -/
def facadeInternalErrorResponse (message : String) : Nat × List (String × JVal) :=
  (500,
   [("success", JVal.bool false),
    ("error", JVal.str message),
    ("status", JVal.num 0),
    ("statusText", JVal.str ("Error")),
    ("headers", JVal.obj []),
    ("body", JVal.str ("")),
    ("bodySize", JVal.num 0),
    ("duration", JVal.num 0)])

/-- The guard of `POST /api/execute_curl` (lines 159-163): the early 400
response exactly when `curlCommand` is falsy (absent or the empty string);
otherwise the handler proceeds to parse and execute. -/
def executeCurlEndpointEarly (curlCommand : Option String) :
    Option (Nat × List (String × JVal)) :=
  if !truthyStrOpt curlCommand then some executeCurlMissingFieldResponse else none

/-- The guard of `POST /api/http_request` (lines 189-193). -/
def httpRequestEndpointEarly (url : Option String) :
    Option (Nat × List (String × JVal)) :=
  if !truthyStrOpt url then some httpRequestMissingFieldResponse else none

/-! ## Concrete descriptors used by individual claims -/

/-- A POST descriptor whose headers contain a `Content-Type` key with an
empty value (used against claim C6). -/
def contentTypeEmptyConfig : HttpRequestConfig :=
  { url := "https://example.com", method := "POST"
    headers := some [("Content-Type", "")], body := some ("b")
    auth := none, timeout := some 30000, followRedirects := some true }

/-- A POST descriptor with present-but-empty headers and a body (used for
claim C6's witness and claim C7's counterexample). -/
def plainPostConfig : HttpRequestConfig :=
  { url := "https://example.com", method := "POST"
    headers := some [], body := some ("x")
    auth := none, timeout := none, followRedirects := none }

/-- A GET descriptor with one custom header and no body (used for claim C7's
witness). -/
def plainGetConfig : HttpRequestConfig :=
  { url := "https://example.com", method := "GET"
    headers := some [("A", "b")], body := none
    auth := none, timeout := none, followRedirects := none }

/-- The raw `http_request` tool input containing only a `url` (used against
claim C3). -/
def httpRequestUrlOnlyInput : HttpRequestInputRaw :=
  { url := some ("https://example.com") }

/-! ## Shared lemmas about the map model -/

theorem getValue_setKey_self (l : List (String × String)) (k v : String) :
    getValue (setKey l k v) k = some v := by
  induction l with
  | nil => simp [setKey, getValue]
  | cons kv t ih =>
    obtain ⟨k', v'⟩ := kv
    by_cases h : (k' == k) = true
    · simp [setKey, getValue, h]
    · simp only [Bool.not_eq_true] at h
      simp [setKey, getValue, h, ih]

theorem getValue_setKey_other (l : List (String × String)) (k v k₂ : String)
    (h : (k == k₂) = false) : getValue (setKey l k v) k₂ = getValue l k₂ := by
  induction l with
  | nil => simp [setKey, getValue, h]
  | cons kv t ih =>
    obtain ⟨k', v'⟩ := kv
    by_cases h' : (k' == k) = true
    · have hk : k' = k := by simpa using h'
      subst hk
      simp [setKey, getValue, h', h]
    · simp only [Bool.not_eq_true] at h'
      simp [setKey, getValue, h', ih]

theorem getValue_setKey_cases (l : List (String × String)) (k₀ v₀ k v : String)
    (h : getValue (setKey l k₀ v₀) k = some v) :
    (k = k₀ ∧ v = v₀) ∨ getValue l k = some v := by
  by_cases hk : k = k₀
  · subst hk
    rw [getValue_setKey_self] at h
    exact Or.inl ⟨rfl, by simpa using h.symm⟩
  · right
    rw [getValue_setKey_other l k₀ v₀ k (by simpa using fun hc => hk hc.symm)] at h
    exact h

theorem getValue_headersAfterAuth_ct (a : Option AuthConfig)
    (hs : List (String × String)) :
    getValue (headersAfterAuth a hs) ("Content-Type") = getValue hs ("Content-Type") := by
  match a with
  | none => rfl
  | some a0 =>
    by_cases hb : (a0.type == "bearer" && truthyStrOpt a0.token) = true
    · simp only [headersAfterAuth, hb, if_true]
      exact getValue_setKey_other hs ("Authorization") _ ("Content-Type") (by decide)
    · simp only [Bool.not_eq_true] at hb
      simp [headersAfterAuth, hb]

/-! ## Claim C1 -/

/-- Claim C1 as stated is false at the error-with-response path:
`handleAxiosError` (lines 101-112) hard-codes `success: false`, so an
`AxiosError` carrying a 2xx response yields `success = false` even though
its status lies in `[200, 300)`. -/
theorem claim_c1_counterexample :
    (executeRequestResponse
        (AxiosOutcome.errResponse 204 ("No Content") [] AxiosData.undef) 3).success = false
    ∧ 200 ≤ (executeRequestResponse
        (AxiosOutcome.errResponse 204 ("No Content") [] AxiosData.undef) 3).status
    ∧ (executeRequestResponse
        (AxiosOutcome.errResponse 204 ("No Content") [] AxiosData.undef) 3).status < 300 :=
  ⟨rfl, by decide, by decide⟩

/-- Claim C1, amended: on the normal path `success` is exactly the
predicate `200 ≤ status < 300`; on every error path — including the
error-with-response path, whatever the status carried by the error's
response — `success` is the constant `false`.  Hence a received response
outside `[200, 300)` yields `success = false` on both paths, but a 2xx
response yields `success = true` only on the normal path. -/
theorem claim_c1_amended (st : Nat) (sx : String) (hs : List (String × String))
    (d : AxiosData) (t : Nat) :
    (executeRequestResponse (AxiosOutcome.ok st sx hs d) t).success
        = decide (200 ≤ st ∧ st < 300)
    ∧ (executeRequestResponse (AxiosOutcome.errResponse st sx hs d) t).success = false
    ∧ (executeRequestResponse AxiosOutcome.errNoResponse t).success = false
    ∧ (∀ m, (executeRequestResponse (AxiosOutcome.errSetup m) t).success = false)
    ∧ (∀ m, (executeRequestResponse (AxiosOutcome.unknown m) t).success = false) := by
  refine ⟨?_, rfl, rfl, fun _ => rfl, fun _ => rfl⟩
  simp [executeRequestResponse, Bool.decide_and]

/-! ## Claim C2 -/

/-- Claim C2 as stated is false for the façade: on its success path the body
is the pretty JSON rendering while the size is measured on the compact
rendering (`http-wrapper.js` lines 115-119).  For the payload `{"a": 1}`
the returned body has UTF-8 length 12 but `bodySize` is 7. -/
theorem claim_c2_counterexample :
    (facadeExecuteResponse
        (FacadeOutcome.ok 200 ("OK") []
          (AxiosData.obj ("\x7b\n  \"a\": 1\n\x7d") ("\x7b\"a\":1\x7d"))) 3).body
      = some ("\x7b\n  \"a\": 1\n\x7d")
    ∧ (facadeExecuteResponse
        (FacadeOutcome.ok 200 ("OK") []
          (AxiosData.obj ("\x7b\n  \"a\": 1\n\x7d") ("\x7b\"a\":1\x7d"))) 3).bodySize = 7
    ∧ utf8Len ("\x7b\n  \"a\": 1\n\x7d") = 12 :=
  ⟨rfl, rfl, rfl⟩

/-- Claim C2, amended: the MCP executor always has
`bodySize = utf8Len body` (on every outcome, success and error alike); the
façade instead measures the compact rendering of the payload on its success
path (which agrees with the returned body only when the payload is textual,
absent or `null`) and hard-codes `bodySize = 0` on its
error-with-response path. -/
theorem claim_c2_amended :
    (∀ o t, (executeRequestResponse o t).bodySize
        = utf8Len (executeRequestResponse o t).body)
    ∧ (∀ st sx hs d t,
        (facadeExecuteResponse (FacadeOutcome.ok st sx hs d) t).bodySize
          = utf8Len (facadeSizeSource d))
    ∧ (∀ st sx hs s t,
        (facadeExecuteResponse (FacadeOutcome.ok st sx hs (AxiosData.str s)) t).bodySize
          = utf8Len s)
    ∧ (∀ st sx hs d t,
        (facadeExecuteResponse (FacadeOutcome.errResponse st sx hs d) t).bodySize = 0) := by
  refine ⟨fun o t => ?_, fun _ _ _ _ _ => rfl, fun _ _ _ _ _ => rfl, fun _ _ _ _ _ => rfl⟩
  cases o <;> rfl

/-! ## Claim C9 -/

/-- Claim C9: a descriptor whose body is present but empty builds exactly
the same outgoing request as a descriptor with no body at all — the
attachment guard `config.body && [...].includes(config.method)`
(`http-client.ts` line 27) is a truthiness test, and `""` is falsy, so no
payload is attached and no Content-Type default fires for any method.  The
response phase does not consult the descriptor, so the executor's behavior
is identical. -/
theorem claim_c9 (cfg : HttpRequestConfig) :
    buildAxiosConfig { cfg with body := some ("") }
      = buildAxiosConfig { cfg with body := none } := rfl

/-! ## Claim C3 -/

/-- Claim C3 is a code bug: the Zod schema `HttpRequestInputSchema`
(`types.ts` line 104) declares `method` as a bare (non-optional,
non-defaulted) enum, so the input containing only a `url` is rejected by
validation with a `Required` issue on `method` — even though the tool's own
advertised JSON schema requires only `url` and advertises `GET` as the
`method` default (`server.ts` lines 317-319, 364), and `applyDefaults`
implements the `GET` fallback together with the `timeout`/`followRedirects`
defaults that would apply. -/
theorem claim_c3_bug :
    zodParseHttpRequestInput httpRequestUrlOnlyInput
        = Except.error ["method: Required"]
    ∧ httpRequestAdvertisedRequired = ["url"]
    ∧ httpRequestAdvertisedMethodDefault = "GET"
    ∧ applyDefaults { url := "https://example.com", method := "GET" }
        = { url := "https://example.com", method := "GET"
            headers := none, body := none, auth := none
            timeout := some 30000, followRedirects := some true } :=
  ⟨rfl, rfl, rfl, rfl⟩

/-! ## Claim C8 -/

/-- Claim C8 as stated is false for the 400 path: the missing-field response
of `POST /api/execute_curl` is `{ error: 'curlCommand is required' }`
(`http-wrapper.js` line 162) — it contains no `success` field at all, hence
no `success: false`. -/
theorem claim_c8_counterexample :
    executeCurlEndpointEarly none = some executeCurlMissingFieldResponse
    ∧ executeCurlMissingFieldResponse.1 = 400
    ∧ hasSuccessFalse executeCurlMissingFieldResponse.2 = false :=
  ⟨rfl, rfl, rfl⟩

/-- Claim C8, amended: a missing (or empty) required field yields the early
400 response on both endpoints, whose JSON body carries only an `error`
message and no `success: false`; the catch-all 500 response does carry
`success: false`. -/
theorem claim_c8_amended (message : String) :
    executeCurlEndpointEarly none = some executeCurlMissingFieldResponse
    ∧ httpRequestEndpointEarly none = some httpRequestMissingFieldResponse
    ∧ executeCurlMissingFieldResponse.1 = 400
    ∧ httpRequestMissingFieldResponse.1 = 400
    ∧ hasSuccessFalse executeCurlMissingFieldResponse.2 = false
    ∧ hasSuccessFalse httpRequestMissingFieldResponse.2 = false
    ∧ (facadeInternalErrorResponse message).1 = 500
    ∧ hasSuccessFalse (facadeInternalErrorResponse message).2 = true :=
  ⟨rfl, rfl, rfl, rfl, rfl, rfl, rfl, rfl⟩

/-! ## Claim C4 -/

/-- Claim C4 as stated is false because the façade does not mirror the
parser's error behavior: its simplified `parseCurlCommand`
(`http-wrapper.js` lines 21-69) has no `curl`-prefix check and no missing-URL
error — on an input that the MCP parser rejects with `InvalidCommand` it
silently returns a parsed configuration. -/
theorem claim_c4_counterexample :
    parseCurlCommand ("wget https://example.com/x")
        = Except.error CurlParseError.invalidCommand
    ∧ (facadeParseCurlCommand ("wget https://example.com/x")).url
        = "https://example.com/x"
    ∧ (facadeParseCurlCommand ("wget https://example.com/x")).method = "GET" :=
  ⟨by rfl, by rfl, by rfl⟩

/-- Claim C4, amended to the MCP parser only: `parseCurlCommand` fails with
`InvalidCommand` exactly when the trimmed string does not start with `curl`
(case-insensitively); otherwise it fails with `MissingUrl` exactly when the
anchored URL scan finds no URL token; in all other cases it returns a
descriptor.  The façade's `parseCurlCommand` raises neither error (it is a
total function into `FacadeParsed`). -/
theorem claim_c4_amended (s : String) :
    (parseCurlCommand s = Except.error CurlParseError.invalidCommand
        ↔ startsWithCurl (jsTrim s) = false)
    ∧ (parseCurlCommand s = Except.error CurlParseError.missingUrl
        ↔ (startsWithCurl (jsTrim s) = true
            ∧ findUrlFrom true (jsTrim s).data = none))
    ∧ (∀ u, startsWithCurl (jsTrim s) = true →
        findUrlFrom true (jsTrim s).data = some u →
        parseCurlCommand s = Except.ok (parseCurlRest (jsTrim s) u)) := by
  unfold parseCurlCommand
  by_cases hc : startsWithCurl (jsTrim s)
  · cases hf : findUrlFrom true (jsTrim s).data <;> simp [hc, hf]
  · simp only [Bool.not_eq_true] at hc
    simp [hc]

/-- Witness for the amended claim C4 at a concrete command. -/
theorem claim_c4_witness :
    parseCurlCommand ("curl https://example.com")
      = Except.ok (parseCurlRest (jsTrim ("curl https://example.com"))
          ("https://example.com")) :=
  (claim_c4_amended ("curl https://example.com")).2.2 ("https://example.com")
    (by rfl) (by rfl)

/-! ## Claim C5 -/

/-- Claim C5: whenever the `-u`/`--user` scan finds credentials, the
resulting descriptor's auth is the basic `AuthSpec` built from them —
regardless of any bearer `AuthSpec` the header scan may have set, because
the basic-auth pass (`curl-parser.ts` lines 82-101) runs after the header
pass and assigns `parsed.auth` unconditionally. -/
theorem claim_c5 (s : String) (cfg : HttpRequestConfig) (credentials : String)
    (hu : findUser (jsTrim s).data = some credentials)
    (hp : parseCurlCommand s = Except.ok cfg) :
    cfg.auth = some (mkBasicAuth credentials) := by
  unfold parseCurlCommand at hp
  by_cases hc : startsWithCurl (jsTrim s) = true
  · rcases hf : findUrlFrom true (jsTrim s).data with _ | u
    · simp [hc, hf] at hp
    · simp only [hc, hf, Bool.not_true, Bool.false_eq_true, if_false,
        Except.ok.injEq] at hp
      subst hp
      simp [parseCurlRest, hu]
  · simp only [Bool.not_eq_true] at hc
    simp [hc] at hp

/-- Witness for claim C5: a command carrying both an implicit bearer header
and a `-u` flag parses to the basic auth. -/
theorem claim_c5_witness :
    (parseCurlRest
        (jsTrim ("curl https://api.example.com -H \"Authorization: Bearer tok123\" -u alice:secret"))
        ("https://api.example.com")).auth
      = some (mkBasicAuth ("alice:secret")) :=
  claim_c5 ("curl https://api.example.com -H \"Authorization: Bearer tok123\" -u alice:secret")
    _ ("alice:secret") (by rfl) (by rfl)

/-! ## Claim C6 -/

/-- Claim C6 as stated is false for an existing-but-empty `Content-Type`
entry: the guard `!headers['Content-Type']` (`http-client.ts` line 30) is a
truthiness test, so a header mapping that *does* contain the literal key
`Content-Type` with value `""` is still overwritten with
`application/json`. -/
theorem claim_c6_counterexample :
    getValue (contentTypeEmptyConfig.headers.getD []) ("Content-Type") = some ""
    ∧ getValue (buildAxiosConfig contentTypeEmptyConfig).headers ("Content-Type")
        = some ("application/json")
    ∧ (buildAxiosConfig contentTypeEmptyConfig).data = some ("b") :=
  ⟨rfl, rfl, rfl⟩

/-- Claim C6, amended: the body is attached exactly when it is present,
nonempty and the method is one of POST/PUT/PATCH; in that case the outgoing
`Content-Type` becomes `application/json` exactly when the descriptor's
`Content-Type` entry (under the literal, case-sensitive key) is absent *or
empty*, and is left as supplied otherwise; when no body is attached the
outgoing `Content-Type` always equals the descriptor's. -/
theorem claim_c6_amended (cfg : HttpRequestConfig) :
    ((buildAxiosConfig cfg).data
        = if truthyStrOpt cfg.body && methodAllowsBody cfg.method then cfg.body else none)
    ∧ ((truthyStrOpt cfg.body && methodAllowsBody cfg.method) = true →
        truthyGet (cfg.headers.getD []) ("Content-Type") = false →
        getValue (buildAxiosConfig cfg).headers ("Content-Type")
          = some ("application/json"))
    ∧ ((truthyStrOpt cfg.body && methodAllowsBody cfg.method) = true →
        truthyGet (cfg.headers.getD []) ("Content-Type") = true →
        getValue (buildAxiosConfig cfg).headers ("Content-Type")
          = getValue (cfg.headers.getD []) ("Content-Type"))
    ∧ ((truthyStrOpt cfg.body && methodAllowsBody cfg.method) = false →
        getValue (buildAxiosConfig cfg).headers ("Content-Type")
          = getValue (cfg.headers.getD []) ("Content-Type")) := by
  refine ⟨rfl, ?_, ?_, ?_⟩
  · intro ha hct
    simp [buildAxiosConfig, ha, hct, getValue_headersAfterAuth_ct,
      getValue_setKey_self]
  · intro ha hct
    simp [buildAxiosConfig, ha, hct, getValue_headersAfterAuth_ct]
  · intro ha
    simp [buildAxiosConfig, ha, getValue_headersAfterAuth_ct]

/-- Witness for the amended claim C6: a POST with a body and no
`Content-Type` entry gets the default. -/
theorem claim_c6_witness :
    getValue (buildAxiosConfig plainPostConfig).headers ("Content-Type")
      = some ("application/json") :=
  (claim_c6_amended plainPostConfig).2.1 rfl rfl

/-! ## Claim C7 -/

/-- Claim C7 as stated is false for the façade: `http-wrapper.js` line 81
aliases the descriptor's headers object into the outgoing request
(`headers: config.headers || {}`), so the Content-Type default of lines
90-92 writes into the caller's mapping.  The MCP executor, which copies
(`http-client.ts` line 16), leaves it untouched. -/
theorem claim_c7_counterexample :
    plainPostConfig.headers = some []
    ∧ facadeHeadersAfter plainPostConfig
        = some [("Content-Type", "application/json")]
    ∧ mcpHeadersAfter plainPostConfig = some [] :=
  ⟨rfl, rfl, rfl⟩

/-- Claim C7, amended: the MCP executor builds its outgoing headers from a
spread copy and never mutates the descriptor; the façade's executor aliases
the descriptor's headers object whenever one is supplied, so after the call
the descriptor's mapping equals the (possibly mutated) outgoing headers —
it is unchanged only when no headers were supplied or when neither the
Content-Type default nor the auth injection fired. -/
theorem claim_c7_amended (cfg : HttpRequestConfig) :
    mcpHeadersAfter cfg = cfg.headers
    ∧ (cfg.headers = none → facadeHeadersAfter cfg = none)
    ∧ (∀ h, cfg.headers = some h →
        facadeHeadersAfter cfg = some ((facadeBuildAxios cfg).headers))
    ∧ (∀ h, cfg.headers = some h →
        (truthyStrOpt cfg.body && methodAllowsBody cfg.method) = false →
        cfg.auth = none →
        facadeHeadersAfter cfg = some h) := by
  refine ⟨rfl, ?_, ?_, ?_⟩
  · intro h0
    simp [facadeHeadersAfter, h0]
  · intro h hh
    simp [facadeHeadersAfter, hh]
  · intro h hh ha hauth
    simp [facadeHeadersAfter, facadeBuildAxios, headersAfterAuth, hh, ha, hauth]

/-- Witness for the amended claim C7: a GET without body or auth leaves even
the façade's aliased headers unchanged. -/
theorem claim_c7_witness :
    facadeHeadersAfter plainGetConfig = some [("A", "b")] :=
  (claim_c7_amended plainGetConfig).2.2.2 [("A", "b")] rfl rfl rfl

/-! ## Claim C10

The header scan's content class `[^']+` excludes single quotes whatever the
opening quote, so no collected header line — and hence no collected key or
value — can contain one.  The converse direction of the claim fails: the
greedy `[^']+` of a double-quoted argument can swallow a following
single-quote-free `-H` flag, so a quote-free header is not necessarily
collected as written. -/

theorem mem_of_mem_trimChars {c : Char} {l : List Char} (h : c ∈ trimChars l) :
    c ∈ l := by
  unfold trimChars at h
  rw [List.mem_reverse] at h
  have h1 := (List.dropWhile_sublist isJsSpace).subset h
  rw [List.mem_reverse] at h1
  exact (List.dropWhile_sublist isJsSpace).subset h1

theorem not_mem_takeWhile_ne_squote {l : List Char} {p : Char → Bool}
    (hp : ∀ c, p c = true → c ≠ squoteChar) :
    squoteChar ∉ l.takeWhile p := by
  intro h
  exact hp squoteChar (List.mem_takeWhile_imp h) rfl

theorem headerArgTail_no_squote {cs : List Char} {line : String} {rest : List Char}
    (h : headerArgTail cs = some (line, rest)) : squoteChar ∉ line.data := by
  have hrun : ∀ r2 : List Char,
      squoteChar ∉ r2.takeWhile (fun c => c != squoteChar) :=
    fun r2 => not_mem_takeWhile_ne_squote (fun c hc => by simpa using hc)
  unfold headerArgTail at h
  split at h
  · exact absurd h (by simp)
  · split at h
    · exact absurd h (by simp)
    · split at h
      · simp only [] at h
        split at h
        · rename_i r2hyp
          simp only [Option.some.injEq, Prod.mk.injEq] at h
          obtain ⟨hl, -⟩ := h
          subst hl
          exact hrun _
        · exact absurd h (by simp)
      · split at h
        · simp only [] at h
          split at h
          · split at h
            · simp only [Option.some.injEq, Prod.mk.injEq] at h
              obtain ⟨hl, -⟩ := h
              subst hl
              intro hc
              exact hrun _ ((List.take_sublist _ _).subset hc)
            · exact absurd h (by simp)
          · exact absurd h (by simp)
        · exact absurd h (by simp)

theorem matchHeaderAt_no_squote {cs : List Char} {line : String} {rest : List Char}
    (h : matchHeaderAt cs = some (line, rest)) : squoteChar ∉ line.data := by
  unfold matchHeaderAt at h
  split at h
  · exact absurd h (by simp)
  · split at h
    · split at h
      · rename_i hres
        split at hres
        · simp only [Option.some.injEq] at h
          subst h
          exact headerArgTail_no_squote hres
        · exact absurd hres (by simp)
      · split at h
        · exact headerArgTail_no_squote h
        · exact absurd h (by simp)
    · exact absurd h (by simp)

theorem scanHeaders_no_squote (fuel : Nat) (cs : List Char) (line : String)
    (h : line ∈ scanHeaders fuel cs) : squoteChar ∉ line.data := by
  induction fuel generalizing cs with
  | zero => simp [scanHeaders] at h
  | succ n ih =>
    cases cs with
    | nil => simp [scanHeaders] at h
    | cons c rest =>
      simp only [scanHeaders] at h
      split at h
      · rename_i pair hm
        rcases List.mem_cons.mp h with hl | hl
        · subst hl
          exact matchHeaderAt_no_squote hm
        · exact ih _ hl
      · exact ih _ h

theorem applyHeaderLine_preserves
    (st : List (String × String) × Option AuthConfig) (line : String)
    (hline : squoteChar ∉ line.data)
    (hst : ∀ k v, getValue st.1 k = some v →
      squoteChar ∉ k.data ∧ squoteChar ∉ v.data) :
    ∀ k v, getValue (applyHeaderLine st line).1 k = some v →
      squoteChar ∉ k.data ∧ squoteChar ∉ v.data := by
  intro k v h
  unfold applyHeaderLine at h
  split at h
  · split at h
    · simp only at h
      rcases getValue_setKey_cases _ _ _ _ _ h with ⟨hk, hv⟩ | hold
      · subst hk
        subst hv
        refine ⟨fun hc => hline ?_, fun hc => hline ?_⟩
        · exact (List.take_sublist _ _).subset (mem_of_mem_trimChars hc)
        · exact (List.drop_sublist _ _).subset (mem_of_mem_trimChars hc)
      · exact hst _ _ hold
    · exact hst _ _ h
  · exact hst _ _ h

theorem foldl_applyHeaderLine_no_squote (lines : List String)
    (hlines : ∀ line ∈ lines, squoteChar ∉ line.data) :
    ∀ st, (∀ k v, getValue st.1 k = some v →
        squoteChar ∉ k.data ∧ squoteChar ∉ v.data) →
      ∀ k v, getValue (lines.foldl applyHeaderLine st).1 k = some v →
        squoteChar ∉ k.data ∧ squoteChar ∉ v.data := by
  induction lines with
  | nil => exact fun st hst k v h => hst _ _ h
  | cons l ls ih =>
    intro st hst k v h
    rw [List.foldl_cons] at h
    exact ih (fun line hl => hlines line (List.mem_cons_of_mem _ hl)) _
      (applyHeaderLine_preserves st l (hlines l (List.mem_cons_self _ _)) hst) _ _ h

/-- Claim C10 as stated is false in its positive half: in
`curl https://e.com -H "A: b" -H "C: d"` both header arguments are free of
single quotes, yet the greedy `[^']+` run of the first match extends to the
last double quote of the command, so the collected mapping is
`A ↦ b" -H "C: d` and no `C` entry exists. -/
theorem claim_c10_counterexample :
    getValue (curlHeadersAuth
        (jsTrim ("curl https://e.com -H \"A: b\" -H \"C: d\"")).data).1 ("C") = none
    ∧ getValue (curlHeadersAuth
        (jsTrim ("curl https://e.com -H \"A: b\" -H \"C: d\"")).data).1 ("A")
      = some ("b\" -H \"C: d") :=
  ⟨by rfl, by rfl⟩

/-- Claim C10, amended: every key and value the parser collects into the
header mapping is free of single quotes — so an `-H` argument containing a
single quote is never collected, whichever quote opens it; but the positive
half only holds up to the greedy span of the match: a single, well-formed
double-quoted header is collected as written (witnessed below), while
quote-free headers may be merged by a longer greedy match. -/
theorem claim_c10_amended :
    (∀ t k v, getValue (curlHeadersAuth t).1 k = some v →
        squoteChar ∉ k.data ∧ squoteChar ∉ v.data)
    ∧ getValue (curlHeadersAuth
        (jsTrim ("curl https://e.com -H \"A: b\"")).data).1 ("A") = some ("b")
    ∧ (parseCurlRest (jsTrim ("curl https://e.com -H \"A: b\"")) ("https://e.com")).headers
      = some [("A", "b")] := by
  refine ⟨?_, by rfl, by rfl⟩
  intro t k v h
  exact foldl_applyHeaderLine_no_squote _
    (fun line hl => scanHeaders_no_squote _ _ _ hl) _
    (fun k v h => by simp [getValue] at h) _ _ h

/-- Witness for the amended claim C10 at the concrete collected header. -/
theorem claim_c10_witness :
    squoteChar ∉ ("A" : String).data ∧ squoteChar ∉ ("b" : String).data :=
  claim_c10_amended.1 (jsTrim ("curl https://e.com -H \"A: b\"")).data ("A") ("b")
    (by rfl)
